import Mathlib

set_option linter.unusedVariables false

/-!
Verification development for the `csv_tools` repository (`split_csv`).

The development shallowly embeds `src/csv_splitter.hpp` and
`src/main_split_csv.cpp`.  Bytes are modelled as `Nat` (the relevant byte
values are the ASCII codes of `'\n'`, `','` and `'"'`), buffers as `List Nat`,
and the file descriptors of the C code as accumulating lists of written
bytes.  The input buffer of `split_csv` is modelled as a list of length
`C + 3` (the allocation is `C + 10` bytes but only indices `0 .. C+2` are
ever initialised; a scan that would run past index `C + 2` reads
uninitialised memory and is reported as the out-of-bounds outcome `oob`).
Uninitialised buffer contents are modelled as the byte `0`; the concrete
runs appearing in the theorems below only ever copy bytes whose values are
fully determined by the program (data bytes and sentinel bytes), never a
modelled-as-zero uninitialised byte.

The chunk capacity `BUFFER_SIZE` (16 KiB in the source) is kept as an
explicit parameter `C` of every definition, exactly as the specification
treats it ("capacity C, a tuning constant"); `BUFFER_SIZE` below records the
source's value of the constant.
-/

/-- ASCII code of the record separator `'\n'`. -/
def NEWLINE : Nat := 10

/-- ASCII code of the field separator `','`. -/
def COMMA : Nat := 44

/-- ASCII code of the quote `'"'`. -/
def DQUOTE : Nat := 34

/-- The buffer capacity constant of the source (`16*1024`). -/
def BUFFER_SIZE : Nat := 16 * 1024

/-- Overwrite `src.length` bytes of `l` starting at index `start`
(model of `memcpy`/`memset` into a fixed-size buffer). -/
def listWrite (l : List Nat) (start : Nat) (src : List Nat) : List Nat :=
  l.take start ++ src ++ l.drop (start + src.length)

/-- Model of `rawmemchr` restricted to the modelled buffer: the index of the
first occurrence of byte `c` at an index `≥ start`, or `none` when the scan
would run past the end of the modelled region (uninitialised memory in the
C program). -/
def rawmemchr (buf : List Nat) (start : Nat) (c : Nat) : Option Nat :=
  match (buf.drop start).findIdx? (fun b => b = c) with
  | some j => some (start + j)
  | none => none

/-- Model of the `ColumnInfo` class: the output file is modelled by its name
and the list of bytes written to it so far (`flushed`). -/
structure ColumnInfo where
  filename : String
  flushed : List Nat
  buffer : List Nat
  buffer_size : Nat
  buffer_position : Nat
deriving Repr, DecidableEq

/-- Model of `flush_buffer`: write the first `buffer_position` bytes of the
buffer to the output and reset the position. -/
def flush_buffer (c : ColumnInfo) : ColumnInfo :=
  { c with flushed := c.flushed ++ c.buffer.take c.buffer_position
           buffer_position := 0 }

/-- The loop of `add_buffer_to_column`.  The fuel argument only bounds the
number of iterations; `src.length + 2` iterations always suffice when
`buffer_size > 0` (the C loop does not terminate when `buffer_size = 0`,
a case no caller exercises). -/
def addBufLoop : Nat → ColumnInfo → List Nat → ColumnInfo
  | 0, c, _ => c
  | fuel + 1, c, src =>
    let remaining := c.buffer_size - c.buffer_position
    if remaining ≤ src.length then
      let c1 := { c with
        buffer := listWrite c.buffer c.buffer_position (src.take remaining)
        buffer_position := c.buffer_position + remaining }
      addBufLoop fuel (flush_buffer c1) (src.drop remaining)
    else
      if src.length ≠ 0 then
        { c with
          buffer := listWrite c.buffer c.buffer_position src
          buffer_position := c.buffer_position + src.length }
      else c

/-- Model of `add_buffer_to_column`: copy the bytes `src` into the column's
buffer, flushing whenever the buffer fills up. -/
def add_buffer_to_column (c : ColumnInfo) (src : List Nat) : ColumnInfo :=
  addBufLoop (src.length + 2) c src

/-- The `while(copy_size >= column.buffer_size)` loop of
`add_chars_to_column`: each iteration calls `flush_buffer` (which writes
`buffer_position` bytes) and decreases `copy_size` by `buffer_size`.
Returns the column together with the remaining `copy_size`.  `copy + 1`
iterations of fuel always suffice when `buffer_size > 0`. -/
def addCharsLoop : Nat → ColumnInfo → Nat → ColumnInfo × Nat
  | 0, c, copy => (c, copy)
  | fuel + 1, c, copy =>
    if c.buffer_size ≤ copy then
      addCharsLoop fuel (flush_buffer c) (copy - c.buffer_size)
    else (c, copy)

/-- Model of `add_chars_to_column` (the spec's `append_fill`): append
`copy_size` repetitions of the byte `chr` to the column. -/
def add_chars_to_column (c : ColumnInfo) (chr : Nat) (copy_size : Nat) : ColumnInfo :=
  if c.buffer_position + copy_size ≤ c.buffer_size then
    { c with
      buffer := listWrite c.buffer c.buffer_position (List.replicate copy_size chr)
      buffer_position := c.buffer_position + copy_size }
  else
    let c1 := if c.buffer_position ≠ 0 then flush_buffer c else c
    if c1.buffer_size ≤ copy_size then
      let c2 := { c1 with buffer := listWrite c1.buffer 0 (List.replicate c1.buffer_size chr) }
      let r := addCharsLoop (copy_size + 1) c2 copy_size
      { r.1 with buffer_position := r.2 }
    else
      { c1 with
        buffer := listWrite c1.buffer 0 (List.replicate copy_size chr)
        buffer_position := copy_size }

/-- The total number of bytes a column has received: bytes already written
to the file plus bytes pending in the buffer. -/
def ColumnInfo.totalLen (c : ColumnInfo) : Nat :=
  c.flushed.length + c.buffer_position

/-- The full output of a column: bytes written to the file followed by the
pending bytes of the buffer. -/
def ColumnInfo.content (c : ColumnInfo) : List Nat :=
  c.flushed ++ c.buffer.take c.buffer_position

/-- Model of `sprintf(id_buffer, "%03zu", id)`: the decimal digits of `id`,
left-padded with `'0'` to at least three characters. -/
def sprintf03 (id : Nat) : String :=
  let s := toString id
  if s.length < 3 then String.mk (List.replicate (3 - s.length) '0') ++ s else s

/-- Model of the `CREATE_COLUMN_INFO` macro: open the output file named
`name ++ sprintf03 id ++ ".csv"` and allocate a buffer of `bufsz` bytes
(the source passes `BUFFER_SIZE`; the buffer's uninitialised contents are
modelled as zeros). -/
def create_column_info (name : String) (id : Nat) (bufsz : Nat) : ColumnInfo :=
  { filename := name ++ sprintf03 id ++ ".csv"
    flushed := []
    buffer := List.replicate bufsz 0
    buffer_size := bufsz
    buffer_position := 0 }

/-- Model of the `CHECK_AND_CREATE_COLUMN` macro: when `current_column`
equals the number of existing columns, resize the vector by one and create
the new column.  Note the id passed to `CREATE_COLUMN_INFO` is
`column_infos.size()` evaluated after the resize, i.e. `cols.length + 1`. -/
def check_and_create_column (bufsz : Nat) (name : String)
    (current_column current_row : Nat) (cols : List ColumnInfo) : List ColumnInfo :=
  if current_column = cols.length then
    let info := create_column_info name (cols.length + 1) bufsz
    let info := add_chars_to_column info NEWLINE current_row
    cols ++ [info]
  else cols

/-- The states of the `CSVState` enum of `split_csv`. -/
inductive CSVState
  | OnRowInitial
  | OnColumnInitial
  | InSimpleColumn
  | InQuotedStringColumn
  | InQuotedStringColumnOnQuote
deriving Repr, DecidableEq

/-- The `assert(false)` sites of `split_csv`:
`columnInitialNewline` is the assert in the `*previous_ptr == '\n'` branch
of `OnColumnInitial`, `quotedResumeEntry` the unconditional assert at the
top of the `InQuotedStringColumnOnQuote` case. -/
inductive AssertSite
  | columnInitialNewline
  | quotedResumeEntry
deriving Repr, DecidableEq

/-- The mutable state of `split_csv`: the input buffer (indices `0 .. C+2`
of the allocation), the three sentinel addresses, the `next_newline`
cursor, the column vector and the row/column counters, the `CSVState`
tag, and the scan cursor `previous_ptr`. -/
structure SplitState where
  buf : List Nat
  nlSent : Nat
  commaSent : Nat
  dqSent : Nat
  nextNewline : Nat
  cols : List ColumnInfo
  currentRow : Nat
  currentColumn : Nat
  st : CSVState
  prevPtr : Nat
deriving Repr

/-- The result of a run of `split_csv`: normal termination with the final
columns (after the end-of-input flush), a fatal assertion, a scan or copy
that runs into uninitialised memory (undefined behaviour in the C
program), or exhausted fuel. -/
inductive RunResult
  | ok (cols : List ColumnInfo)
  | assertFail (site : AssertSite)
  | oob
  | outOfFuel
deriving Repr, DecidableEq

/-- Control position inside the `split_csv` loop: about to `read_chunk`,
about to dispatch at `state_begin`, or inside the inner scanning loop of
the `InQuotedStringColumn` case with the given `last_read` cursor. -/
inductive Phase
  | readChunk
  | stateBegin
  | quoteScan (lastRead : Nat)
deriving Repr, DecidableEq

/-- Outcome of one dispatch of the state machine: continue at a phase with
an updated state, or stop with a result. -/
inductive StepOut
  | toPhase (p : Phase) (s : SplitState)
  | fail (r : RunResult)

/-- A placeholder column; `modifyCol` below only ever uses it on indices
the C program would access out of bounds. -/
def defaultColumn : ColumnInfo :=
  { filename := "", flushed := [], buffer := [], buffer_size := 0, buffer_position := 0 }

/-- Apply `f` to `column_infos[i]`. -/
def modifyCol (cols : List ColumnInfo) (i : Nat) (f : ColumnInfo → ColumnInfo) : List ColumnInfo :=
  cols.set i (f (cols.getD i defaultColumn))

/-- The `while(current_column != column_infos.size())` padding loop of the
`OnRowInitial` case: append one `'\n'` to each column from index `fromIdx`
up to the end of the vector. -/
def padColumnsLoop : Nat → List ColumnInfo → Nat → List ColumnInfo
  | 0, cols, _ => cols
  | n + 1, cols, idx =>
    padColumnsLoop n (modifyCol cols idx (fun c => add_chars_to_column c NEWLINE 1)) (idx + 1)

/-- Padding of the unread columns with newlines (`OnRowInitial`). -/
def padColumns (cols : List ColumnInfo) (fromIdx : Nat) : List ColumnInfo :=
  padColumnsLoop (cols.length - fromIdx) cols fromIdx

/-- The `OnColumnInitial` case of the `switch` (also the fall-through
target of `OnRowInitial`): inspect the byte under `previous_ptr`. -/
def column_initial_step (C : Nat) (name : String) (s : SplitState) : StepOut :=
  match s.buf[s.prevPtr]? with
  | none => .fail .oob
  | some b =>
    if b = DQUOTE then
      let cols := check_and_create_column C name s.currentColumn s.currentRow s.cols
      let cols := modifyCol cols s.currentColumn (fun c => add_chars_to_column c DQUOTE 1)
      .toPhase .stateBegin
        { s with cols := cols, prevPtr := s.prevPtr + 1, st := .InQuotedStringColumn }
    else if b = COMMA then
      let cols := check_and_create_column C name s.currentColumn s.currentRow s.cols
      if s.prevPtr = s.nextNewline then
        .toPhase .stateBegin
          { s with cols := cols, prevPtr := s.prevPtr + 1, st := .OnRowInitial }
      else
        let cols := modifyCol cols s.currentColumn (fun c => add_chars_to_column c NEWLINE 1)
        .toPhase .stateBegin
          { s with cols := cols, currentColumn := s.currentColumn + 1
                   prevPtr := s.prevPtr + 1, st := .OnColumnInitial }
    else if b = NEWLINE then .fail (.assertFail .columnInitialNewline)
    else
      let cols := check_and_create_column C name s.currentColumn s.currentRow s.cols
      .toPhase .stateBegin { s with cols := cols, st := .InSimpleColumn }

/-- The `InSimpleColumn` case: scan forward for the next `','`. -/
def simple_column_step (C : Nat) (s : SplitState) : StepOut :=
  match rawmemchr s.buf s.prevPtr COMMA with
  | none => .fail .oob
  | some nc =>
    if nc = s.commaSent then
      if C < s.prevPtr then .fail .oob
      else
        let src := (s.buf.take C).drop s.prevPtr
        let cols := modifyCol s.cols s.currentColumn (fun c => add_buffer_to_column c src)
        .toPhase .readChunk { s with cols := cols, st := .InSimpleColumn }
    else if nc = s.nextNewline then
      let src := (s.buf.take nc).drop s.prevPtr
      let cols := modifyCol s.cols s.currentColumn (fun c => add_buffer_to_column c src)
      let cols := modifyCol cols s.currentColumn (fun c => add_chars_to_column c NEWLINE 1)
      .toPhase .stateBegin
        { s with cols := cols, currentColumn := s.currentColumn + 1
                 prevPtr := nc + 1, st := .OnRowInitial }
    else
      let src := (s.buf.take nc).drop s.prevPtr
      let cols := modifyCol s.cols s.currentColumn (fun c => add_buffer_to_column c src)
      let cols := modifyCol cols s.currentColumn (fun c => add_chars_to_column c NEWLINE 1)
      .toPhase .stateBegin
        { s with cols := cols, currentColumn := s.currentColumn + 1
                 prevPtr := nc + 1, st := .OnColumnInitial }

/-- The `next_ptr > next_newline` block of the `InQuotedStringColumn` case:
revert the converted newline and, if the found quote is still inside the
window, recompute (and convert) the next newline position. -/
def fixNextNewline (C : Nat) (s : SplitState) (nq : Nat) : Option SplitState :=
  if s.nextNewline < nq then
    let s1 := { s with buf := s.buf.set s.nextNewline NEWLINE }
    if nq < C then
      match rawmemchr s1.buf nq NEWLINE with
      | none => none
      | some n2 =>
        if n2 ≠ s1.nlSent then
          some { s1 with buf := s1.buf.set n2 COMMA, nextNewline := n2 }
        else some { s1 with nextNewline := n2 }
    else some s1
  else some s

/-- One iteration of the inner scanning loop of `InQuotedStringColumn`:
scan for the next `'"'` from `lastRead` and dispatch on what follows it. -/
def quote_scan_step (C : Nat) (s0 : SplitState) (lastRead : Nat) : StepOut :=
  match rawmemchr s0.buf lastRead DQUOTE with
  | none => .fail .oob
  | some nq =>
    match fixNextNewline C s0 nq with
    | none => .fail .oob
    | some s =>
      if nq = s.dqSent then
        if C < s.prevPtr then .fail .oob
        else
          let src := (s.buf.take C).drop s.prevPtr
          let cols := modifyCol s.cols s.currentColumn (fun c => add_buffer_to_column c src)
          .toPhase .readChunk { s with cols := cols, st := .InQuotedStringColumn }
      else if nq + 1 = C then
        if C < s.prevPtr then .fail .oob
        else
          let src := (s.buf.take C).drop s.prevPtr
          let cols := modifyCol s.cols s.currentColumn (fun c => add_buffer_to_column c src)
          .toPhase .readChunk { s with cols := cols, st := .InQuotedStringColumnOnQuote }
      else
        match s.buf[nq + 1]? with
        | none => .fail .oob
        | some b2 =>
          if b2 = DQUOTE then
            .toPhase (.quoteScan (nq + 2)) s
          else if b2 = COMMA then
            let src := (s.buf.take (nq + 1)).drop s.prevPtr
            let cols := modifyCol s.cols s.currentColumn (fun c => add_buffer_to_column c src)
            let cols := modifyCol cols s.currentColumn (fun c => add_chars_to_column c NEWLINE 1)
            let s := { s with cols := cols, currentColumn := s.currentColumn + 1
                              prevPtr := nq + 2 }
            if nq + 1 = s.nextNewline then
              match rawmemchr s.buf (s.nextNewline + 1) NEWLINE with
              | none => .fail .oob
              | some n3 =>
                if n3 ≠ s.nlSent then
                  .toPhase .stateBegin
                    { s with buf := s.buf.set n3 COMMA, nextNewline := n3
                             st := .OnRowInitial }
                else
                  .toPhase .stateBegin { s with nextNewline := n3, st := .OnRowInitial }
            else
              .toPhase .stateBegin { s with st := .OnColumnInitial }
          else
            let src := (s.buf.take (nq + 1)).drop s.prevPtr
            let cols := modifyCol s.cols s.currentColumn (fun c => add_buffer_to_column c src)
            .toPhase .stateBegin
              { s with cols := cols, prevPtr := nq + 1, st := .InSimpleColumn }

/-- The main loop of `split_csv`, driven by fuel (structural recursion so
that concrete runs compute by `decide`/`rfl`; one unit of fuel is spent per
`read_chunk`, per `state_begin` dispatch and per inner quote-scan
iteration). -/
def splitLoop (C : Nat) (name : String) : Nat → Phase → SplitState → List (List Nat) → RunResult
  | 0, _, _, _ => .outOfFuel
  | fuel + 1, .readChunk, s, chunks =>
    match chunks with
    | [] => .ok (s.cols.map flush_buffer)
    | ch :: rest =>
      let data := ch.take C
      let bt := data.length
      if bt = 0 then .ok (s.cols.map flush_buffer)
      else
        let buf1 := listWrite s.buf 0 data
        let s1 :=
          if bt ≠ C then
            { s with buf := listWrite buf1 bt [NEWLINE, COMMA, DQUOTE]
                     nlSent := bt, commaSent := bt + 1, dqSent := bt + 2, prevPtr := 0 }
          else { s with buf := buf1, prevPtr := 0 }
        if s1.st ≠ CSVState.OnRowInitial then
          match rawmemchr s1.buf 0 NEWLINE with
          | none => .oob
          | some n =>
            let s2 :=
              if n ≠ s1.nlSent then { s1 with buf := s1.buf.set n COMMA, nextNewline := n }
              else { s1 with nextNewline := n }
            splitLoop C name fuel .stateBegin s2 rest
        else splitLoop C name fuel .stateBegin s1 rest
  | fuel + 1, .stateBegin, s, chunks =>
    if s.prevPtr = s.nlSent then splitLoop C name fuel .readChunk s chunks
    else
      match s.st with
      | .OnRowInitial =>
        let cols := padColumns s.cols s.currentColumn
        let s1 := { s with cols := cols, currentColumn := 0, currentRow := s.currentRow + 1 }
        match rawmemchr s1.buf s1.prevPtr NEWLINE with
        | none => .oob
        | some n =>
          let s2 :=
            if n ≠ s1.nlSent then { s1 with buf := s1.buf.set n COMMA, nextNewline := n }
            else { s1 with nextNewline := n }
          match column_initial_step C name s2 with
          | .fail r => r
          | .toPhase p s3 => splitLoop C name fuel p s3 chunks
      | .OnColumnInitial =>
        match column_initial_step C name s with
        | .fail r => r
        | .toPhase p s3 => splitLoop C name fuel p s3 chunks
      | .InSimpleColumn =>
        match simple_column_step C s with
        | .fail r => r
        | .toPhase p s3 => splitLoop C name fuel p s3 chunks
      | .InQuotedStringColumn =>
        match quote_scan_step C s s.prevPtr with
        | .fail r => r
        | .toPhase p s3 => splitLoop C name fuel p s3 chunks
      | .InQuotedStringColumnOnQuote => .assertFail .quotedResumeEntry
  | fuel + 1, .quoteScan lastRead, s, chunks =>
    match quote_scan_step C s lastRead with
    | .fail r => r
    | .toPhase p s3 => splitLoop C name fuel p s3 chunks

/-- The initial state of `split_csv`: an uninitialised input buffer with
the three sentinel bytes written at indices `C`, `C+1`, `C+2`, no columns,
counters at zero, initial state `OnColumnInitial`. -/
def initState (C : Nat) : SplitState :=
  { buf := List.replicate C 0 ++ [NEWLINE, COMMA, DQUOTE]
    nlSent := C, commaSent := C + 1, dqSent := C + 2
    nextNewline := 0
    cols := []
    currentRow := 0
    currentColumn := 0
    st := .OnColumnInitial
    prevPtr := 0 }

/-- A run of `split_csv` with chunk capacity `C`, output name prefix
`name`, and the given sequence of `read` results (`chunks`; an exhausted
list or an empty chunk models `read` returning `0`). -/
def split_csv_run (C : Nat) (name : String) (fuel : Nat) (chunks : List (List Nat)) : RunResult :=
  splitLoop C name fuel .readChunk (initState C) chunks

/-- The output files of a finished run: for each column its file name and
the bytes written to it. -/
def run_outputs (r : RunResult) : Option (List (String × List Nat)) :=
  match r with
  | .ok cols => some (cols.map (fun c => (c.filename, c.flushed)))
  | _ => none

/-- Result of a run of `main` from `src/main_split_csv.cpp`, as observable
behaviour: whether the usage text was printed, the process exit status,
whether `open` was called on the input path (i.e. input processing began),
whether `split_csv` was invoked, and the output-name value passed to it. -/
structure MainResult where
  printedHelp : Bool
  exitCode : Nat
  openedInput : Bool
  ranSplit : Bool
  outName : String
deriving Repr, DecidableEq

/-- The argument loop of `main` (`for(int i = 1; i < argc - 1; i++)`): the
first `--help` returns immediately (modelled as `none`); `--prefix=<p>`
replaces the accumulated output-name value. -/
def processOptions : List String → String → Option String
  | [], acc => some acc
  | a :: rest, acc =>
    if a = "--help" then none
    else if a.take 9 = "--prefix=" then processOptions rest (a.drop 9)
    else processOptions rest acc

/-- Model of `main`: `openOk path` tells whether `open(path, O_RDONLY)`
succeeds.  Note the order of operations in the source: the last argument
is taken as the input file and opened before the option loop runs. -/
def main_model (args : List String) (openOk : String → Bool) : MainResult :=
  if args.length ≤ 1 then
    { printedHelp := true, exitCode := 1, openedInput := false, ranSplit := false, outName := "" }
  else
    let inputName := args.getLastD ""
    let opened := inputName != "-"
    if opened && !(openOk inputName) then
      { printedHelp := false, exitCode := 1, openedInput := true, ranSplit := false, outName := "" }
    else
      match processOptions ((args.drop 1).dropLast) "" with
      | none =>
        { printedHelp := true, exitCode := 0, openedInput := opened
          ranSplit := false, outName := "" }
      | some p =>
        { printedHelp := false, exitCode := 0, openedInput := opened
          ranSplit := true, outName := p }

/-- Reference definition following the spec's words: the number of fields
of each row of a byte stream, counting a field separator only outside
quotes and ending a row at a record separator outside quotes; a trailing
row without a final record separator still counts.  (`inQ`: inside a
quoted region; `commas`: separators seen in the current row; `started`:
the current row has consumed at least one byte.) -/
def spec_fieldCountsGo : List Nat → Bool → Nat → Bool → List Nat
  | [], _, commas, started => if started then [commas + 1] else []
  | b :: rest, inQ, commas, started =>
    if b = NEWLINE ∧ ¬inQ then (commas + 1) :: spec_fieldCountsGo rest false 0 false
    else if b = COMMA ∧ ¬inQ then spec_fieldCountsGo rest inQ (commas + 1) true
    else if b = DQUOTE then spec_fieldCountsGo rest (¬inQ) commas true
    else spec_fieldCountsGo rest inQ commas true

/-- Reference definition following the spec's words: the field counts of
the rows of a logical input. -/
def spec_fieldCounts (input : List Nat) : List Nat :=
  spec_fieldCountsGo input false 0 false

/-- Reference definition following the spec's words: "the maximum number
of fields observed in any single row". -/
def spec_maxFields (input : List Nat) : Nat :=
  (spec_fieldCounts input).foldr max 0

/-- Reference definition following the spec's words: the doubled-quote
escaping of a field value (each `'"'` of the value becomes `'""'`). -/
def spec_escapeQuotes : List Nat → List Nat
  | [] => []
  | b :: rest =>
    if b = DQUOTE then DQUOTE :: DQUOTE :: spec_escapeQuotes rest
    else b :: spec_escapeQuotes rest

/-- Reference definition following the spec's words: a quoted field as it
appears in the input, `'"' ++ escaped value ++ '"'`. -/
def spec_quoteField (v : List Nat) : List Nat :=
  DQUOTE :: spec_escapeQuotes v ++ [DQUOTE]

/-- Reference definition following the spec's words: decoding of a quoted
field under the doubled-quote escaping rule; `none` on a malformed
encoding. -/
def spec_decodeQuotedGo : List Nat → Option (List Nat)
  | [] => none
  | b :: rest =>
    if b = DQUOTE then
      match rest with
      | [] => some []
      | b2 :: rest2 =>
        if b2 = DQUOTE then (spec_decodeQuotedGo rest2).map (fun v => DQUOTE :: v)
        else none
    else (spec_decodeQuotedGo rest).map (fun v => b :: v)

/-- Reference definition following the spec's words: decode a complete
quoted field (leading quote, escaped body, closing quote). -/
def spec_decodeQuoted : List Nat → Option (List Nat)
  | [] => none
  | b :: rest => if b = DQUOTE then spec_decodeQuotedGo rest else none

/-- The number of column files a finished run created. -/
def run_column_count (r : RunResult) : Option Nat :=
  (run_outputs r).map List.length

/-- C1: the claim states that split_csv produces byte-identical column
output for every chunking of the same logical byte stream.  The code
violates this: the logical input `"ab\n"` delivered as one read of three
bytes produces column output `"ab\n"`, but delivered as a read of one byte
followed by a read of two bytes (chunk capacity 4, as with a pipe that
returns short reads) the `InSimpleColumn` sentinel branch copies up to
`input_buffer + BUFFER_SIZE` — past the valid region of the short window —
so the column output additionally contains the sentinel bytes `'\n'` `','`
`'"'`. -/
theorem split_csv_not_chunk_independent :
    run_outputs (split_csv_run 4 "" 99 [[97, 98, 10]]) = some [("001.csv", [97, 98, 10])] ∧
    run_outputs (split_csv_run 4 "" 99 [[97], [98, 10]]) =
      some [("001.csv", [97, 10, 44, 34, 98, 10])] ∧
    run_outputs (split_csv_run 4 "" 99 [[97, 98, 10]]) ≠
      run_outputs (split_csv_run 4 "" 99 [[97], [98, 10]]) := by
  refine ⟨by decide, by decide, by decide⟩

/-- C2: the claim states that `add_chars_to_column` appends exactly
`count` repetitions, including counts at least the buffer capacity.  In
the bulk branch the code flushes with `buffer_position = 0`, so each
flush writes zero bytes: on a fresh column of capacity 4, appending 5
bytes leaves a total of 1 byte (`count mod capacity`), not 5. -/
theorem add_chars_to_column_drops_bytes :
    (create_column_info "" 1 4).totalLen = 0 ∧
    (add_chars_to_column (create_column_info "" 1 4) 120 5).totalLen = 1 ∧
    (add_chars_to_column (create_column_info "" 1 4) 120 5).content = [120] := by
  refine ⟨by decide, by decide, by decide⟩

/-- C3: the claim describes how the machine resumes in
`InQuotedStringColumnOnQuote` by inspecting the first byte of the new
window.  The case begins with an unconditional `assert(false)` (and the
build does not define `NDEBUG`), so reaching the state aborts the process
before any byte is inspected: a quoted field whose quote falls on the
last byte of a full window (`"ab"` filling a 4-byte window, followed by
`",c\n"`) dies on the assert instead of terminating the field. -/
theorem quoted_resume_hits_assert :
    split_csv_run 4 "" 99 [[34, 97, 98, 34], [44, 99, 10]] =
      .assertFail .quotedResumeEntry := by decide

/-- C4: the claim states that after each row's record separator every
existing column has received exactly one terminator for that row.  For
the input `"a,b\nc\n"` (two rows, the second missing field 1) the run
terminates with column 1 holding only `"b\n"` — one line for two rows:
the `OnRowInitial` padding for the final row never executes because the
end-of-window test `previous_ptr == NEWLINE_SENTINEL` exits to
`read_chunk` (and then to end-of-input) first. -/
theorem final_ragged_row_not_padded :
    run_outputs (split_csv_run 16 "" 99 [[97, 44, 98, 10, 99, 10]]) =
      some [("001.csv", [97, 10, 99, 10]), ("002.csv", [98, 10])] ∧
    spec_fieldCounts [97, 44, 98, 10, 99, 10] = [2, 1] ∧
    List.count NEWLINE [98, 10] = 1 := by
  refine ⟨by decide, by decide, by decide⟩

/-- C5: the claim states that the number of column files equals the
maximum number of fields observed in any single row.  The input `","`
(one row with two empty fields, no trailing record separator) produces
only one column file: the trailing empty field's column would only be
created by the next `OnColumnInitial`/`OnRowInitial` dispatch, which
never runs at end of input.  A second violation needs no end-of-input
raggedness: `"a,aa\n"` delivered as reads of 1 and 4 bytes (capacity 4)
leaves the sentinel addresses stale and produces one column for a
two-field row. -/
theorem column_count_not_max_fields :
    run_column_count (split_csv_run 4 "" 99 [[44]]) = some 1 ∧
    spec_maxFields [44] = 2 ∧
    run_column_count (split_csv_run 4 "" 99 [[97], [44, 97, 97, 10]]) = some 1 ∧
    spec_maxFields [97, 44, 97, 97, 10] = 2 := by
  refine ⟨by decide, by decide, by decide, by decide⟩

/-- C7: the claim states that when the `InSimpleColumn` scan only finds
the field-separator sentinel, exactly the bytes from the cursor to the
end of the *valid* window are copied.  The code copies to
`input_buffer + BUFFER_SIZE` unconditionally: for the single short read
`"a"` (capacity 4) the column receives `'a'` followed by the three
sentinel bytes `'\n'` `','` `'"'` that lie beyond the valid region. -/
theorem simple_sentinel_copies_past_valid_window :
    run_outputs (split_csv_run 4 "" 99 [[97]]) = some [("001.csv", [97, 10, 44, 34])] := by
  decide

theorem flush_buffer_filename (c : ColumnInfo) : (flush_buffer c).filename = c.filename := rfl

theorem addCharsLoop_filename (fuel : Nat) :
    ∀ (c : ColumnInfo) (copy : Nat), ((addCharsLoop fuel c copy).1).filename = c.filename := by
  induction fuel with
  | zero => intro c copy; rfl
  | succ fuel ih =>
    intro c copy
    unfold addCharsLoop
    split
    · rw [ih, flush_buffer_filename]
    · rfl

theorem add_chars_filename (c : ColumnInfo) (chr n : Nat) :
    (add_chars_to_column c chr n).filename = c.filename := by
  unfold add_chars_to_column
  by_cases h1 : c.buffer_position + n ≤ c.buffer_size
  · simp [h1]
  · by_cases h2 : c.buffer_position ≠ 0 <;> by_cases h3 : c.buffer_size ≤ n <;>
      simp [h1, h2, h3, addCharsLoop_filename, flush_buffer]

/-- C8 counterexample: the claim says the first discovered column with
empty name prefix is written to `000.csv`; the run on input `"a\n"`
creates it as `001.csv`. -/
theorem first_column_file_not_named_000 :
    run_outputs (split_csv_run 16 "" 99 [[97, 10]]) = some [("001.csv", [97, 10])] ∧
    run_outputs (split_csv_run 16 "" 99 [[97, 10]]) ≠ some [("000.csv", [97, 10])] := by
  refine ⟨by decide, by decide⟩

/-- C8 amended: a column discovered at 0-based index `i = cols.length` is
created with file name `name ++ sprintf03 (i + 1) ++ ".csv"` — the number
in the file name is the discovery index plus one (`column_infos.size()`
evaluated after the resize), zero-padded to at least three digits, so the
first column is `001.csv`, not `000.csv`. -/
theorem column_file_named_one_past_index (bufsz : Nat) (name : String) (row : Nat)
    (cols : List ColumnInfo) :
    (check_and_create_column bufsz name cols.length row cols).map ColumnInfo.filename =
      cols.map ColumnInfo.filename ++ [name ++ sprintf03 (cols.length + 1) ++ ".csv"] := by
  unfold check_and_create_column
  simp [add_chars_filename, create_column_info]

theorem processOptions_help (pre post : List String) :
    ∀ acc, processOptions (pre ++ "--help" :: post) acc = none := by
  induction pre with
  | nil => intro acc; simp [processOptions]
  | cons a pre ih =>
    intro acc
    by_cases ha : a = "--help"
    · simp [processOptions, ha]
    · by_cases hp : a.take 9 = "--prefix="
      · simp [processOptions, ha, hp, ih]
      · simp [processOptions, ha, hp, ih]

/-- C9 counterexample: the claim says any invocation whose arguments
include `--help` prints usage, opens no input, and exits 0.  The loop of
`main` only scans arguments strictly before the last one, and the last
argument is opened as the input first: `./split_csv --help` treats
`--help` as the input filename — when no such file exists it exits 1
without printing usage, and when such a file exists it processes it as
CSV input; in both cases it calls `open` on it. -/
theorem help_as_final_argument_ignored :
    main_model ["split_csv", "--help"] (fun _ => false) =
      { printedHelp := false, exitCode := 1, openedInput := true
        ranSplit := false, outName := "" } ∧
    main_model ["split_csv", "--help"] (fun _ => true) =
      { printedHelp := false, exitCode := 0, openedInput := true
        ranSplit := true, outName := "" } := by
  refine ⟨rfl, rfl⟩

/-- C9 amended: `--help` is honoured only when it appears before the last
argument; the last argument is taken as the input and opened first (when
it is not `"-"`), and only then does the program print the usage text,
skip the splitting, and exit 0. -/
theorem help_before_input_prints_usage (pre post : List String) (input : String)
    (f : String → Bool) (h : input = "-" ∨ f input = true) :
    main_model ("split_csv" :: (pre ++ "--help" :: post) ++ [input]) f =
      { printedHelp := true, exitCode := 0, openedInput := (input != "-")
        ranSplit := false, outName := "" } := by
  unfold main_model
  have hlen : ¬ (("split_csv" :: (pre ++ "--help" :: post) ++ [input]).length ≤ 1) := by
    simp [List.length_append]
  rw [if_neg hlen]
  dsimp only
  have hlast : (("split_csv" :: (pre ++ "--help" :: post) ++ [input]).getLastD "") = input := by
    rw [← List.cons_append, List.getLastD_concat]
  rw [hlast]
  have hgate : ((input != "-") && !(f input)) = false := by
    rcases h with h | h
    · subst h; rfl
    · rw [h]; simp
  rw [hgate]
  simp only [Bool.false_eq_true, if_false]
  have hmid : ((("split_csv" :: (pre ++ "--help" :: post) ++ [input]).drop 1).dropLast)
      = pre ++ "--help" :: post := by
    rw [List.drop_one]
    rw [show ("split_csv" :: (pre ++ "--help" :: post) ++ [input]).tail
        = (pre ++ "--help" :: post) ++ [input] from rfl]
    exact List.dropLast_concat
  rw [hmid, processOptions_help]

/-- C9 amended, concrete witness: `./split_csv --help -` prints the usage
text and exits 0 (reading from stdin means no file is opened). -/
theorem help_before_input_prints_usage_witness :
    main_model ("split_csv" :: ([] ++ "--help" :: []) ++ ["-"]) (fun _ => false) =
      { printedHelp := true, exitCode := 0, openedInput := ("-" != "-")
        ranSplit := false, outName := "" } :=
  help_before_input_prints_usage [] [] "-" (fun _ => false) (Or.inl rfl)

/-- C10: a `read` that returns zero bytes on the very first call ends the
run with zero columns created and a normal `.ok` result (both when the
chunk list is exhausted and when an explicit empty chunk is supplied),
and `main` invoked on stdin runs the splitter and exits 0. -/
theorem empty_input_zero_columns_clean_exit :
    (∀ C name fuel, split_csv_run C name (fuel + 1) [] = .ok []) ∧
    (∀ C name fuel rest, split_csv_run C name (fuel + 1) ([] :: rest) = .ok []) ∧
    (∀ f, main_model ["split_csv", "-"] f =
      { printedHelp := false, exitCode := 0, openedInput := false
        ranSplit := true, outName := "" }) := by
  refine ⟨fun C name fuel => rfl, fun C name fuel rest => ?_, fun f => rfl⟩
  simp [split_csv_run, splitLoop, initState]

theorem rawmemchr_at (buf : List Nat) (start c : Nat) (h : buf[start]? = some c) :
    rawmemchr buf start c = some start := by
  obtain ⟨hlt, hget⟩ := List.getElem?_eq_some.mp h
  unfold rawmemchr
  rw [List.drop_eq_getElem_cons hlt, List.findIdx?_cons, hget]
  simp

theorem rawmemchr_succ (buf : List Nat) (start c b : Nat) (hb : buf[start]? = some b)
    (hne : b ≠ c) : rawmemchr buf start c = rawmemchr buf (start + 1) c := by
  obtain ⟨hlt, hget⟩ := List.getElem?_eq_some.mp hb
  unfold rawmemchr
  rw [List.drop_eq_getElem_cons hlt, List.findIdx?_cons, hget]
  rw [if_neg (by simp [hne])]
  rw [show (0 + 1 : Nat) = 0 + 1 from rfl, List.findIdx?_succ]
  cases hfi : List.findIdx? (fun x => decide (x = c)) (buf.drop (start + 1)) with
  | none => simp
  | some j => simp; omega

theorem rawmemchr_cons (x : Nat) (l : List Nat) (start c : Nat) :
    rawmemchr (x :: l) (start + 1) c = (rawmemchr l start c).map (· + 1) := by
  unfold rawmemchr
  rw [List.drop_succ_cons]
  cases hfi : List.findIdx? (fun b => decide (b = c)) (l.drop start) with
  | none => simp
  | some j => simp; omega

theorem rawmemchr_append_first (c : Nat) :
    ∀ (A : List Nat) (B : List Nat) (start : Nat), start ≤ A.length →
      (∀ b ∈ A.drop start, b ≠ c) → rawmemchr (A ++ c :: B) start c = some A.length := by
  intro A
  induction A with
  | nil =>
    intro B start hs _
    have h0 : start = 0 := Nat.le_zero.mp hs
    subst h0
    exact rawmemchr_at (c :: B) 0 c (by simp)
  | cons a A ih =>
    intro B start hs hmem
    cases start with
    | zero =>
      have ha : a ≠ c := hmem a (by simp)
      rw [show ((a :: A) ++ c :: B) = a :: (A ++ c :: B) from rfl]
      rw [rawmemchr_succ (a :: (A ++ c :: B)) 0 c a (by simp) ha]
      rw [show (0 + 1 : Nat) = 0 + 1 from rfl, rawmemchr_cons]
      rw [ih B 0 (Nat.zero_le _) (fun b hb => hmem b (by simp; exact Or.inr (by simpa using hb)))]
      simp
    | succ s =>
      rw [show ((a :: A) ++ c :: B) = a :: (A ++ c :: B) from rfl, rawmemchr_cons]
      rw [ih B s (by simpa using hs) (fun b hb => hmem b (by simpa using hb))]
      simp

theorem listWrite_zero (l src : List Nat) : listWrite l 0 src = src ++ l.drop src.length := by
  simp [listWrite]

theorem listWrite_append (A B src : List Nat) :
    listWrite (A ++ B) A.length src = A ++ src ++ B.drop src.length := by
  unfold listWrite
  rw [List.take_left]
  rw [show A.length + src.length = A.length + src.length from rfl]
  rw [List.drop_append_eq_append_drop]
  simp [List.append_assoc]

theorem set_append_length (A B : List Nat) (x y : Nat) :
    (A ++ x :: B).set A.length y = A ++ y :: B := by
  induction A with
  | nil => rfl
  | cons a A ih => simp [List.set_cons_succ, ih]

theorem listWrite_length (l src : List Nat) (pos : Nat) (h : pos + src.length ≤ l.length) :
    (listWrite l pos src).length = l.length := by
  simp [listWrite]
  omega

theorem listWrite_take (l src : List Nat) (pos : Nat) (h : pos ≤ l.length) :
    (listWrite l pos src).take (pos + src.length) = l.take pos ++ src := by
  unfold listWrite
  rw [List.append_assoc]
  rw [show pos + src.length = (l.take pos).length + src.length by
    simp [List.length_take]; omega]
  rw [List.take_append, List.take_left]

/-- Bookkeeping predicate for a column: its name, the bytes already
flushed, the pending bytes (the prefix of the buffer below
`buffer_position`), and its capacity, together with the structural
invariants the C code maintains (`buffer` allocated at exactly
`buffer_size` bytes). -/
def colRep (c : ColumnInfo) (fname : String) (fl p : List Nat) (size : Nat) : Prop :=
  c.filename = fname ∧ c.flushed = fl ∧ c.buffer_size = size ∧ c.buffer.length = size ∧
  c.buffer_position = p.length ∧ c.buffer.take c.buffer_position = p

theorem colRep_create (name : String) (id size : Nat) :
    colRep (create_column_info name id size) (name ++ sprintf03 id ++ ".csv") [] [] size := by
  simp [colRep, create_column_info]

theorem colRep_add_chars {c : ColumnInfo} {fname : String} {fl p : List Nat} {size : Nat}
    (h : colRep c fname fl p size) (ch n : Nat) (hn : p.length + n ≤ size) :
    colRep (add_chars_to_column c ch n) fname fl (p ++ List.replicate n ch) size := by
  obtain ⟨h1, h2, h3, h4, h5, h6⟩ := h
  unfold add_chars_to_column
  rw [if_pos (by omega)]
  refine ⟨h1, h2, h3, ?_, ?_, ?_⟩
  · rw [listWrite_length _ _ _ (by simp; omega)]
    exact h4
  · simp; omega
  · rw [show c.buffer_position + n = c.buffer_position + (List.replicate n ch).length by simp]
    rw [listWrite_take _ _ _ (by omega), h6]

theorem addBufLoop_small (fuel : Nat) (c : ColumnInfo) (src : List Nat)
    (h : src.length < c.buffer_size - c.buffer_position) :
    addBufLoop (fuel + 1) c src =
      { c with buffer := listWrite c.buffer c.buffer_position src
               buffer_position := c.buffer_position + src.length } := by
  unfold addBufLoop
  rw [if_neg (by omega)]
  by_cases hz : src.length ≠ 0
  · rw [if_pos hz]
  · rw [if_neg hz]
    have hsrc : src = [] := List.length_eq_zero.mp (by omega)
    subst hsrc
    cases c with
    | mk f fl b bs bp => simp [listWrite, List.take_append_drop]

theorem colRep_add_buffer {c : ColumnInfo} {fname : String} {fl p : List Nat} {size : Nat}
    (h : colRep c fname fl p size) (src : List Nat) (hn : p.length + src.length < size) :
    colRep (add_buffer_to_column c src) fname fl (p ++ src) size := by
  obtain ⟨h1, h2, h3, h4, h5, h6⟩ := h
  unfold add_buffer_to_column
  rw [show src.length + 2 = (src.length + 1) + 1 from rfl]
  rw [addBufLoop_small (src.length + 1) c src (by omega)]
  refine ⟨h1, h2, h3, ?_, ?_, ?_⟩
  · rw [listWrite_length _ _ _ (by omega)]
    exact h4
  · simp; omega
  · rw [listWrite_take _ _ _ (by omega), h6]

theorem colRep_flush {c : ColumnInfo} {fname : String} {fl p : List Nat} {size : Nat}
    (h : colRep c fname fl p size) :
    colRep (flush_buffer c) fname (fl ++ p) [] size := by
  obtain ⟨h1, h2, h3, h4, h5, h6⟩ := h
  unfold flush_buffer
  exact ⟨h1, by rw [h2, h6], h3, h4, rfl, rfl⟩

theorem modifyCol_singleton (c : ColumnInfo) (f : ColumnInfo → ColumnInfo) :
    modifyCol [c] 0 f = [f c] := rfl

theorem spec_escapeQuotes_mem {v : List Nat} {b : Nat} (h : b ∈ spec_escapeQuotes v) :
    b ∈ v ∨ b = DQUOTE := by
  induction v with
  | nil => simp [spec_escapeQuotes] at h
  | cons a v ih =>
    by_cases ha : a = DQUOTE
    · subst ha
      rw [show spec_escapeQuotes (DQUOTE :: v) = DQUOTE :: DQUOTE :: spec_escapeQuotes v from by
        simp [spec_escapeQuotes]] at h
      rcases List.mem_cons.mp h with h | h
      · exact Or.inr h
      · rcases List.mem_cons.mp h with h | h
        · exact Or.inr h
        · rcases ih h with h2 | h2
          · exact Or.inl (List.mem_cons_of_mem _ h2)
          · exact Or.inr h2
    · rw [show spec_escapeQuotes (a :: v) = a :: spec_escapeQuotes v from by
        simp [spec_escapeQuotes, ha]] at h
      rcases List.mem_cons.mp h with h | h
      · exact Or.inl (by simp [h])
      · rcases ih h with h2 | h2
        · exact Or.inl (List.mem_cons_of_mem _ h2)
        · exact Or.inr h2

theorem fixNextNewline_noop (C : Nat) (s : SplitState) (nq : Nat)
    (h : ¬ s.nextNewline < nq) : fixNextNewline C s nq = some s := by
  unfold fixNextNewline
  rw [if_neg h]

theorem quote_scan_step_escape (C : Nat) (s : SplitState) (p : Nat)
    (hfind : rawmemchr s.buf p DQUOTE = some p)
    (hnoop : ¬ s.nextNewline < p) (hdq : p ≠ s.dqSent) (hC : ¬ p + 1 = C)
    (hnext : s.buf[p + 1]? = some DQUOTE) :
    quote_scan_step C s p = .toPhase (.quoteScan (p + 2)) s := by
  unfold quote_scan_step
  rw [hfind]
  dsimp only
  rw [fixNextNewline_noop C s p hnoop]
  dsimp only
  rw [if_neg hdq, if_neg hC, hnext]
  dsimp only
  rw [if_pos rfl]

theorem quote_scan_step_shift (C : Nat) (s : SplitState) (p b : Nat)
    (hb : s.buf[p]? = some b) (hne : b ≠ DQUOTE) :
    quote_scan_step C s p = quote_scan_step C s (p + 1) := by
  unfold quote_scan_step
  rw [rawmemchr_succ s.buf p DQUOTE b hb hne]

theorem splitLoop_quoteScan_congr (C : Nat) (name : String) (chunks : List (List Nat))
    (s : SplitState) (a b : Nat) (h : quote_scan_step C s a = quote_scan_step C s b)
    (fuel : Nat) :
    splitLoop C name fuel (.quoteScan a) s chunks = splitLoop C name fuel (.quoteScan b) s chunks := by
  cases fuel with
  | zero => rfl
  | succ fuel =>
    unfold splitLoop
    rw [h]

theorem splitLoop_stateBegin_sentinel (C : Nat) (name : String) (chunks : List (List Nat))
    (s : SplitState) (fuel : Nat) (h : s.prevPtr = s.nlSent) :
    splitLoop C name (fuel + 1) .stateBegin s chunks =
      splitLoop C name fuel .readChunk s chunks := by
  conv_lhs => unfold splitLoop
  rw [if_pos h]

theorem splitLoop_stateBegin_quoted (C : Nat) (name : String) (chunks : List (List Nat))
    (s : SplitState) (fuel : Nat) (h : ¬ s.prevPtr = s.nlSent)
    (hst : s.st = .InQuotedStringColumn) :
    splitLoop C name (fuel + 1) .stateBegin s chunks =
      splitLoop C name (fuel + 1) (.quoteScan s.prevPtr) s chunks := by
  conv_lhs => unfold splitLoop
  conv_rhs => unfold splitLoop
  rw [if_neg h, hst]

theorem quoteScan_over_escaped (C : Nat) (name : String) (chunks : List (List Nat))
    (s : SplitState) :
    ∀ (u : List Nat) (p : Nat) (R : List Nat) (fuel : Nat),
      s.buf.drop p = spec_escapeQuotes u ++ R →
      p + (spec_escapeQuotes u).length ≤ s.nextNewline →
      s.nextNewline < s.dqSent → s.nextNewline + 2 ≤ C →
      splitLoop C name (fuel + u.count DQUOTE) (.quoteScan p) s chunks =
        splitLoop C name fuel (.quoteScan (p + (spec_escapeQuotes u).length)) s chunks := by
  intro u
  induction u with
  | nil =>
    intro p R fuel _ _ _ _
    simp [spec_escapeQuotes]
  | cons b u ih =>
    intro p R fuel hdrop hnn hdq hC2
    by_cases hbq : b = DQUOTE
    · subst hbq
      have hlen : (spec_escapeQuotes (DQUOTE :: u)).length = (spec_escapeQuotes u).length + 2 := by
        simp [spec_escapeQuotes]
      have hdropD : s.buf.drop p = DQUOTE :: DQUOTE :: (spec_escapeQuotes u ++ R) := by
        simpa [spec_escapeQuotes] using hdrop
      have hp0 : s.buf[p]? = some DQUOTE := by
        have h0 := List.getElem?_drop s.buf p 0
        rw [hdropD] at h0
        simpa using h0.symm
      have hp1 : s.buf[p + 1]? = some DQUOTE := by
        have h1 := List.getElem?_drop s.buf p 1
        rw [hdropD] at h1
        simpa using h1.symm
      have hfind : rawmemchr s.buf p DQUOTE = some p := rawmemchr_at _ _ _ hp0
      have hstep : quote_scan_step C s p = .toPhase (.quoteScan (p + 2)) s :=
        quote_scan_step_escape C s p hfind (by omega) (by omega) (by omega) hp1
      have hcount : (DQUOTE :: u).count DQUOTE = u.count DQUOTE + 1 := by
        simp [List.count_cons]
      rw [hcount, show fuel + (u.count DQUOTE + 1) = (fuel + u.count DQUOTE) + 1 by omega]
      rw [show splitLoop C name ((fuel + u.count DQUOTE) + 1) (.quoteScan p) s chunks =
            splitLoop C name (fuel + u.count DQUOTE) (.quoteScan (p + 2)) s chunks from by
        conv_lhs => unfold splitLoop
        rw [hstep]]
      have hdrop2 : s.buf.drop (p + 2) = spec_escapeQuotes u ++ R := by
        rw [← List.drop_drop 2 p s.buf, hdropD]
        rfl
      rw [ih (p + 2) R fuel hdrop2 (by omega) hdq hC2]
      rw [show p + 2 + (spec_escapeQuotes u).length = p + (spec_escapeQuotes (DQUOTE :: u)).length by
        rw [hlen]; omega]
    · have hlen : (spec_escapeQuotes (b :: u)).length = (spec_escapeQuotes u).length + 1 := by
        simp [spec_escapeQuotes, hbq]
      have hdropb : s.buf.drop p = b :: (spec_escapeQuotes u ++ R) := by
        simpa [spec_escapeQuotes, hbq] using hdrop
      have hp0 : s.buf[p]? = some b := by
        have h0 := List.getElem?_drop s.buf p 0
        rw [hdropb] at h0
        simpa using h0.symm
      have hcount : (b :: u).count DQUOTE = u.count DQUOTE := by
        simp [List.count_cons, hbq]
      rw [hcount]
      rw [splitLoop_quoteScan_congr C name chunks s p (p + 1)
        (quote_scan_step_shift C s p b hp0 hbq) (fuel + u.count DQUOTE)]
      have hdrop1 : s.buf.drop (p + 1) = spec_escapeQuotes u ++ R := by
        rw [← List.drop_drop 1 p s.buf, hdropb]
        rfl
      rw [ih (p + 1) R fuel hdrop1 (by omega) hdq hC2]
      rw [show p + 1 + (spec_escapeQuotes u).length = p + (spec_escapeQuotes (b :: u)).length by
        rw [hlen]; omega]

theorem quote_scan_step_close_row (C : Nat) (s : SplitState) (p : Nat)
    (hfind : rawmemchr s.buf p DQUOTE = some p)
    (hnoop : ¬ s.nextNewline < p) (hdq : p ≠ s.dqSent) (hC : ¬ p + 1 = C)
    (hcomma : s.buf[p + 1]? = some COMMA)
    (hnn2 : p + 1 = s.nextNewline)
    (hsent : rawmemchr s.buf (s.nextNewline + 1) NEWLINE = some s.nlSent) :
    quote_scan_step C s p =
      .toPhase .stateBegin
        { s with
            cols := modifyCol (modifyCol s.cols s.currentColumn
                (fun c => add_buffer_to_column c ((s.buf.take (p + 1)).drop s.prevPtr)))
              s.currentColumn (fun c => add_chars_to_column c NEWLINE 1)
            currentColumn := s.currentColumn + 1
            prevPtr := p + 2
            nextNewline := s.nlSent
            st := .OnRowInitial } := by
  unfold quote_scan_step
  rw [hfind]
  dsimp only
  rw [fixNextNewline_noop C s p hnoop]
  dsimp only
  rw [if_neg hdq, if_neg hC, hcomma]
  dsimp only
  rw [if_neg (by decide : ¬ (COMMA = DQUOTE)), if_pos rfl]
  try dsimp only
  rw [if_pos hnn2, hsent]
  try dsimp only
  rw [if_neg (by simp : ¬ (s.nlSent ≠ s.nlSent))]

theorem spec_decodeQuotedGo_escape (w : List Nat) :
    spec_decodeQuotedGo (spec_escapeQuotes w ++ [DQUOTE]) = some w := by
  induction w with
  | nil => simp [spec_escapeQuotes, spec_decodeQuotedGo]
  | cons b w ih =>
    by_cases hb : b = DQUOTE
    · subst hb
      rw [show spec_escapeQuotes (DQUOTE :: w) = DQUOTE :: DQUOTE :: spec_escapeQuotes w from by
        simp [spec_escapeQuotes]]
      simp [spec_decodeQuotedGo, ih]
    · rw [show spec_escapeQuotes (b :: w) = b :: spec_escapeQuotes w from by
        simp [spec_escapeQuotes, hb]]
      rw [List.cons_append]
      rw [show spec_decodeQuotedGo (b :: (spec_escapeQuotes w ++ [DQUOTE]))
          = (spec_decodeQuotedGo (spec_escapeQuotes w ++ [DQUOTE])).map (fun x => b :: x) from by
        conv_lhs => unfold spec_decodeQuotedGo
        rw [if_neg hb]]
      rw [ih]
      rfl

theorem spec_decode_encode (v : List Nat) :
    spec_decodeQuoted (spec_quoteField v) = some v := by
  unfold spec_quoteField spec_decodeQuoted
  simp [spec_decodeQuotedGo_escape v]

/-- The input buffer contents after `split_csv` has read the single chunk
`spec_quoteField v ++ [NEWLINE]` (with `E = spec_escapeQuotes v`), placed
the sentinels, and converted the newline at index `E.length + 2` to a
comma: quote, escaped body, closing quote, converted comma, then the three
sentinels and the untouched remainder of the allocation. -/
def c6Buf (C : Nat) (E : List Nat) : List Nat :=
  DQUOTE :: (E ++ (DQUOTE :: COMMA :: NEWLINE :: COMMA :: DQUOTE ::
    (initState C).buf.drop (E.length + 6)))

/-- The machine state right after the chunk read of the C6 run. -/
def c6State1 (C : Nat) (E : List Nat) : SplitState :=
  { buf := c6Buf C E
    nlSent := E.length + 3, commaSent := E.length + 3 + 1, dqSent := E.length + 3 + 2
    nextNewline := E.length + 2
    cols := [], currentRow := 0, currentColumn := 0
    st := .OnColumnInitial, prevPtr := 0 }

/-- Column 0 of the C6 run right after its opening quote is written. -/
def c6Col0 (C : Nat) : ColumnInfo :=
  add_chars_to_column (add_chars_to_column (create_column_info "" 1 C) NEWLINE 0) DQUOTE 1

/-- The machine state after the `OnColumnInitial` dispatch of the C6 run. -/
def c6State2 (C : Nat) (E : List Nat) : SplitState :=
  { c6State1 C E with cols := [c6Col0 C], prevPtr := 0 + 1, st := .InQuotedStringColumn }

/-- Column 0 of the C6 run after the quoted field is terminated. -/
def c6Col2 (C : Nat) (E : List Nat) : ColumnInfo :=
  add_chars_to_column (add_buffer_to_column (c6Col0 C) (E ++ [DQUOTE])) NEWLINE 1

/-- The machine state after the closing dispatch of the C6 run. -/
def c6State3 (C : Nat) (E : List Nat) : SplitState :=
  { c6State2 C E with
      cols := [c6Col2 C E]
      currentColumn := 0 + 1
      prevPtr := 1 + E.length + 2
      nextNewline := E.length + 3
      st := .OnRowInitial }

/-- C6: quoting preservation.  For every field value `v` free of record
separators, presenting the quoted field `spec_quoteField v` (doubled-quote
escaping, as in the spec's example `"a,b""c"`) followed by a record
separator as the input of `split_csv` (one read, chunk capacity larger
than the input) writes exactly the bytes `spec_quoteField v ++ [NEWLINE]`
to the first column's output file — the embedded field separators survive
and each doubled quote is preserved — and decoding that line under the
same doubled-quote escaping rule recovers `v` exactly. -/
theorem quoted_field_bytes_preserved (v : List Nat) (C : Nat)
    (hv : NEWLINE ∉ v) (hC : (spec_escapeQuotes v).length + 3 < C) :
    run_outputs (split_csv_run C "" (v.count DQUOTE + 5) [spec_quoteField v ++ [NEWLINE]]) =
      some [("001.csv", spec_quoteField v ++ [NEWLINE])] ∧
    spec_decodeQuoted (spec_quoteField v) = some v := by
  refine ⟨?_, spec_decode_encode v⟩
  have hlenin : (spec_quoteField v ++ [NEWLINE]).length = (spec_escapeQuotes v).length + 3 := by
    simp [spec_quoteField]
  have hlenA : (DQUOTE :: (spec_escapeQuotes v ++ [DQUOTE])).length
      = (spec_escapeQuotes v).length + 2 := by simp
  -- the written buffer, in canonical form
  have h1 : listWrite (initState C).buf 0 (spec_quoteField v ++ [NEWLINE])
      = (spec_quoteField v ++ [NEWLINE]) ++
        (initState C).buf.drop ((spec_escapeQuotes v).length + 3) := by
    rw [listWrite_zero, hlenin]
  have h2 : listWrite ((spec_quoteField v ++ [NEWLINE]) ++
        (initState C).buf.drop ((spec_escapeQuotes v).length + 3))
        ((spec_escapeQuotes v).length + 3) [NEWLINE, COMMA, DQUOTE]
      = (spec_quoteField v ++ [NEWLINE]) ++ ([NEWLINE, COMMA, DQUOTE] ++
        (initState C).buf.drop ((spec_escapeQuotes v).length + 6)) := by
    rw [← hlenin, listWrite_append]
    rw [show ([NEWLINE, COMMA, DQUOTE] : List Nat).length = 3 from rfl]
    rw [List.drop_drop 3 ((spec_quoteField v ++ [NEWLINE]).length) (initState C).buf]
    rw [hlenin]
    rw [show (spec_escapeQuotes v).length + 3 + 3 = (spec_escapeQuotes v).length + 6 by omega]
    rw [List.append_assoc]
  have h3 : (spec_quoteField v ++ [NEWLINE]) ++ ([NEWLINE, COMMA, DQUOTE] ++
        (initState C).buf.drop ((spec_escapeQuotes v).length + 6))
      = (DQUOTE :: (spec_escapeQuotes v ++ [DQUOTE])) ++ (NEWLINE ::
          (NEWLINE :: COMMA :: DQUOTE ::
            (initState C).buf.drop ((spec_escapeQuotes v).length + 6))) := by
    simp [spec_quoteField]
  have h4 : ((DQUOTE :: (spec_escapeQuotes v ++ [DQUOTE])) ++ (NEWLINE ::
          (NEWLINE :: COMMA :: DQUOTE ::
            (initState C).buf.drop ((spec_escapeQuotes v).length + 6)))).set
        ((spec_escapeQuotes v).length + 2) COMMA
      = c6Buf C (spec_escapeQuotes v) := by
    rw [← hlenA, set_append_length]
    simp [c6Buf]
  have hrawnl : rawmemchr ((DQUOTE :: (spec_escapeQuotes v ++ [DQUOTE])) ++ (NEWLINE ::
          (NEWLINE :: COMMA :: DQUOTE ::
            (initState C).buf.drop ((spec_escapeQuotes v).length + 6)))) 0 NEWLINE
      = some ((spec_escapeQuotes v).length + 2) := by
    rw [← hlenA]
    refine rawmemchr_append_first NEWLINE _ _ 0 (Nat.zero_le _) ?_
    intro b hb
    simp at hb
    rcases hb with hb | hb | hb
    · subst hb; decide
    · rcases spec_escapeQuotes_mem hb with h | h
      · intro hbn; subst hbn; exact hv h
      · subst h; decide
    · subst hb; decide
  -- read-chunk step
  have step1 : splitLoop C "" (v.count DQUOTE + 5) .readChunk (initState C)
        [spec_quoteField v ++ [NEWLINE]]
      = splitLoop C "" (v.count DQUOTE + 4) .stateBegin
          (c6State1 C (spec_escapeQuotes v)) [] := by
    conv_lhs => unfold splitLoop
    dsimp only
    rw [List.take_of_length_le (show (spec_quoteField v ++ [NEWLINE]).length ≤ C by omega)]
    rw [hlenin]
    rw [if_neg (by omega : ¬ ((spec_escapeQuotes v).length + 3 = 0))]
    rw [if_pos (by omega : (spec_escapeQuotes v).length + 3 ≠ C)]
    dsimp only [initState]
    rw [if_pos (by decide : CSVState.OnColumnInitial ≠ CSVState.OnRowInitial)]
    rw [show listWrite (List.replicate C 0 ++ [NEWLINE, COMMA, DQUOTE]) 0
          (spec_quoteField v ++ [NEWLINE]) = listWrite (initState C).buf 0
          (spec_quoteField v ++ [NEWLINE]) from rfl]
    rw [h1, h2, h3, hrawnl]
    dsimp only
    rw [if_pos (by omega : (spec_escapeQuotes v).length + 2 ≠ (spec_escapeQuotes v).length + 3)]
    rw [h4]
    rfl
  -- OnColumnInitial dispatch
  have hbuf0 : (c6State1 C (spec_escapeQuotes v)).buf[(c6State1 C
      (spec_escapeQuotes v)).prevPtr]? = some DQUOTE := by
    rw [show (c6State1 C (spec_escapeQuotes v)).prevPtr = 0 from rfl,
      show (c6State1 C (spec_escapeQuotes v)).buf = c6Buf C (spec_escapeQuotes v) from rfl]
    simp only [c6Buf]
    exact List.getElem?_cons_zero
  have hcis : column_initial_step C "" (c6State1 C (spec_escapeQuotes v)) =
      .toPhase .stateBegin (c6State2 C (spec_escapeQuotes v)) := by
    unfold column_initial_step
    rw [hbuf0]
    dsimp only
    rw [if_pos rfl]
    rfl
  have step2 : splitLoop C "" (v.count DQUOTE + 4) .stateBegin
        (c6State1 C (spec_escapeQuotes v)) []
      = splitLoop C "" (v.count DQUOTE + 3) .stateBegin
          (c6State2 C (spec_escapeQuotes v)) [] := by
    conv_lhs => unfold splitLoop
    rw [if_neg (show ¬ ((c6State1 C (spec_escapeQuotes v)).prevPtr =
        (c6State1 C (spec_escapeQuotes v)).nlSent) from by
      rw [show (c6State1 C (spec_escapeQuotes v)).prevPtr = 0 from rfl,
          show (c6State1 C (spec_escapeQuotes v)).nlSent =
            (spec_escapeQuotes v).length + 3 from rfl]
      omega)]
    rw [show (c6State1 C (spec_escapeQuotes v)).st = CSVState.OnColumnInitial from rfl]
    dsimp only
    rw [hcis]
  -- enter the quoted-field scan
  have step3 : splitLoop C "" (v.count DQUOTE + 3) .stateBegin
        (c6State2 C (spec_escapeQuotes v)) []
      = splitLoop C "" (v.count DQUOTE + 3) (.quoteScan 1)
          (c6State2 C (spec_escapeQuotes v)) [] := by
    have h := splitLoop_stateBegin_quoted C "" [] (c6State2 C (spec_escapeQuotes v))
      (v.count DQUOTE + 2)
      (by
        rw [show (c6State2 C (spec_escapeQuotes v)).prevPtr = 1 from rfl,
            show (c6State2 C (spec_escapeQuotes v)).nlSent =
              (spec_escapeQuotes v).length + 3 from rfl]
        omega)
      rfl
    rw [show (c6State2 C (spec_escapeQuotes v)).prevPtr = 1 from rfl] at h
    exact h
  -- skip over the escaped body of the field
  have hdropS : (c6State2 C (spec_escapeQuotes v)).buf.drop 1 =
      spec_escapeQuotes v ++ (DQUOTE :: COMMA :: NEWLINE :: COMMA :: DQUOTE ::
        (initState C).buf.drop ((spec_escapeQuotes v).length + 6)) := rfl
  have step4 : splitLoop C "" (3 + v.count DQUOTE) (.quoteScan 1)
        (c6State2 C (spec_escapeQuotes v)) []
      = splitLoop C "" 3 (.quoteScan (1 + (spec_escapeQuotes v).length))
          (c6State2 C (spec_escapeQuotes v)) [] := by
    exact quoteScan_over_escaped C "" [] (c6State2 C (spec_escapeQuotes v)) v 1
      (DQUOTE :: COMMA :: NEWLINE :: COMMA :: DQUOTE ::
        (initState C).buf.drop ((spec_escapeQuotes v).length + 6)) 3 hdropS
      (by rw [show (c6State2 C (spec_escapeQuotes v)).nextNewline =
            (spec_escapeQuotes v).length + 2 from rfl]; omega)
      (by rw [show (c6State2 C (spec_escapeQuotes v)).nextNewline =
            (spec_escapeQuotes v).length + 2 from rfl,
          show (c6State2 C (spec_escapeQuotes v)).dqSent =
            (spec_escapeQuotes v).length + 3 + 2 from rfl]; omega)
      (by rw [show (c6State2 C (spec_escapeQuotes v)).nextNewline =
            (spec_escapeQuotes v).length + 2 from rfl]; omega)
  -- facts about the closing positions
  have hdropn1 : (c6State2 C (spec_escapeQuotes v)).buf.drop (1 + (spec_escapeQuotes v).length)
      = DQUOTE :: COMMA :: NEWLINE :: COMMA :: DQUOTE ::
        (initState C).buf.drop ((spec_escapeQuotes v).length + 6) := by
    rw [← List.drop_drop (spec_escapeQuotes v).length 1
      (c6State2 C (spec_escapeQuotes v)).buf, hdropS, List.drop_left]
  have hat1n : (c6State2 C (spec_escapeQuotes v)).buf[1 + (spec_escapeQuotes v).length]? =
      some DQUOTE := by
    have h0 := List.getElem?_drop (c6State2 C (spec_escapeQuotes v)).buf
      (1 + (spec_escapeQuotes v).length) 0
    rw [hdropn1] at h0
    simpa using h0.symm
  have hat2n : (c6State2 C (spec_escapeQuotes v)).buf[1 + (spec_escapeQuotes v).length + 1]? =
      some COMMA := by
    have h1' := List.getElem?_drop (c6State2 C (spec_escapeQuotes v)).buf
      (1 + (spec_escapeQuotes v).length) 1
    rw [hdropn1] at h1'
    simpa using h1'.symm
  have hdropn3 : (c6State2 C (spec_escapeQuotes v)).buf.drop (1 + (spec_escapeQuotes v).length + 2)
      = NEWLINE :: COMMA :: DQUOTE ::
        (initState C).buf.drop ((spec_escapeQuotes v).length + 6) := by
    rw [show 1 + (spec_escapeQuotes v).length + 2 =
        1 + (spec_escapeQuotes v).length + 2 from rfl,
      ← List.drop_drop 2 (1 + (spec_escapeQuotes v).length)
        (c6State2 C (spec_escapeQuotes v)).buf, hdropn1]
    rfl
  have hat3n : (c6State2 C (spec_escapeQuotes v)).buf[1 + (spec_escapeQuotes v).length + 2]? =
      some NEWLINE := by
    have h2' := List.getElem?_drop (c6State2 C (spec_escapeQuotes v)).buf
      (1 + (spec_escapeQuotes v).length + 2) 0
    rw [hdropn3] at h2'
    simpa using h2'.symm
  have hsent : rawmemchr (c6State2 C (spec_escapeQuotes v)).buf
      ((c6State2 C (spec_escapeQuotes v)).nextNewline + 1) NEWLINE =
      some (c6State2 C (spec_escapeQuotes v)).nlSent := by
    rw [show (c6State2 C (spec_escapeQuotes v)).nextNewline =
        (spec_escapeQuotes v).length + 2 from rfl,
      show (c6State2 C (spec_escapeQuotes v)).nlSent =
        (spec_escapeQuotes v).length + 3 from rfl]
    have h := rawmemchr_at _ _ _ hat3n
    rw [show 1 + (spec_escapeQuotes v).length + 2 = (spec_escapeQuotes v).length + 2 + 1
      by omega] at h
    rw [h]
  -- the closing dispatch
  have hclose := quote_scan_step_close_row C (c6State2 C (spec_escapeQuotes v))
    (1 + (spec_escapeQuotes v).length)
    (rawmemchr_at _ _ _ hat1n)
    (by rw [show (c6State2 C (spec_escapeQuotes v)).nextNewline =
          (spec_escapeQuotes v).length + 2 from rfl]; omega)
    (by rw [show (c6State2 C (spec_escapeQuotes v)).dqSent =
          (spec_escapeQuotes v).length + 3 + 2 from rfl]; omega)
    (by omega)
    hat2n
    (by rw [show (c6State2 C (spec_escapeQuotes v)).nextNewline =
          (spec_escapeQuotes v).length + 2 from rfl]; omega)
    hsent
  have hsrc : ((c6State2 C (spec_escapeQuotes v)).buf.take
        (1 + (spec_escapeQuotes v).length + 1)).drop
        (c6State2 C (spec_escapeQuotes v)).prevPtr
      = spec_escapeQuotes v ++ [DQUOTE] := by
    rw [show (c6State2 C (spec_escapeQuotes v)).prevPtr = 1 from rfl]
    rw [show (c6State2 C (spec_escapeQuotes v)).buf = c6Buf C (spec_escapeQuotes v) from rfl]
    rw [c6Buf, List.take_succ_cons]
    rw [show (1 : Nat) + (spec_escapeQuotes v).length = (spec_escapeQuotes v).length + 1
      by omega]
    rw [List.take_append 1]
    rfl
  have hclose2 : quote_scan_step C (c6State2 C (spec_escapeQuotes v))
      (1 + (spec_escapeQuotes v).length) =
      .toPhase .stateBegin (c6State3 C (spec_escapeQuotes v)) := by
    rw [hclose]
    congr 1
    rw [hsrc]
    rfl
  have step5 : splitLoop C "" 3 (.quoteScan (1 + (spec_escapeQuotes v).length))
        (c6State2 C (spec_escapeQuotes v)) []
      = splitLoop C "" 2 .stateBegin (c6State3 C (spec_escapeQuotes v)) [] := by
    conv_lhs => unfold splitLoop
    rw [hclose2]
  have step6 : splitLoop C "" 2 .stateBegin (c6State3 C (spec_escapeQuotes v)) []
      = splitLoop C "" 1 .readChunk (c6State3 C (spec_escapeQuotes v)) [] := by
    refine splitLoop_stateBegin_sentinel C "" [] _ 1 ?_
    rw [show (c6State3 C (spec_escapeQuotes v)).prevPtr =
        1 + (spec_escapeQuotes v).length + 2 from rfl,
      show (c6State3 C (spec_escapeQuotes v)).nlSent =
        (spec_escapeQuotes v).length + 3 from rfl]
    omega
  have step7 : splitLoop C "" 1 .readChunk (c6State3 C (spec_escapeQuotes v)) []
      = .ok [flush_buffer (c6Col2 C (spec_escapeQuotes v))] := rfl
  -- the column's content
  have r0 := colRep_create "" 1 C
  rw [show ("" ++ sprintf03 1 ++ ".csv" : String) = "001.csv" by decide] at r0
  have r1 := colRep_add_chars r0 NEWLINE 0 (by simp)
  rw [List.replicate_zero, List.append_nil] at r1
  have r2 := colRep_add_chars r1 DQUOTE 1 (by simp; omega)
  rw [List.replicate_one, List.nil_append] at r2
  have r2x : colRep (c6Col0 C) "001.csv" [] [DQUOTE] C := r2
  have r3 := colRep_add_buffer r2x (spec_escapeQuotes v ++ [DQUOTE]) (by simp; omega)
  have r4 := colRep_add_chars r3 NEWLINE 1 (by simp; omega)
  rw [List.replicate_one] at r4
  rw [show ([DQUOTE] ++ (spec_escapeQuotes v ++ [DQUOTE])) ++ [NEWLINE] =
      spec_quoteField v ++ [NEWLINE] by simp [spec_quoteField]] at r4
  have r4x : colRep (c6Col2 C (spec_escapeQuotes v)) "001.csv" []
      (spec_quoteField v ++ [NEWLINE]) C := r4
  have r5 := colRep_flush r4x
  rw [List.nil_append] at r5
  obtain ⟨hf1, hf2, _, _, _, _⟩ := r5
  -- assemble
  rw [split_csv_run, step1, step2, step3,
    show v.count DQUOTE + 3 = 3 + v.count DQUOTE by omega, step4, step5, step6, step7]
  simp only [run_outputs, List.map]
  rw [hf1, hf2]

/-- C6 witness: the spec's example.  The value `a,b"c` (bytes
`[97,44,98,34,99]`) is input as the quoted field `"a,b""c"`; the run
writes exactly those bytes (comma and doubled quote included) to
`001.csv`, and decoding recovers `a,b"c`. -/
theorem quoted_field_bytes_preserved_witness :
    NEWLINE ∉ ([97, 44, 98, 34, 99] : List Nat) ∧
    (spec_escapeQuotes [97, 44, 98, 34, 99]).length + 3 < 16 ∧
    (run_outputs (split_csv_run 16 "" (([97, 44, 98, 34, 99] : List Nat).count DQUOTE + 5)
        [spec_quoteField [97, 44, 98, 34, 99] ++ [NEWLINE]]) =
      some [("001.csv", spec_quoteField [97, 44, 98, 34, 99] ++ [NEWLINE])] ∧
     spec_decodeQuoted (spec_quoteField [97, 44, 98, 34, 99]) = some [97, 44, 98, 34, 99]) :=
  ⟨by decide, by decide,
    quoted_field_bytes_preserved [97, 44, 98, 34, 99] 16 (by decide) (by decide)⟩
